import Mathlib

/-!
Verification development for the helm-set-status plugin.

The embedding follows the Go sources: `pkg/status/status.go` (status
vocabulary and the SetStatus transition engine) and the command wrapper
`runWithConfigFactory` in `main.go`. A Helm release status is a string
type compared by string equality; the release store is the external
collaborator exposing latest-lookup, lookup-by-revision and update, so
SetStatus is embedded over an abstract record of those three operations,
with the in-memory driver used by the tests given as a concrete instance.
-/

/-- A Helm release status: in the source this is the string type
`release.Status`, compared by string equality. -/
abbrev Status := String

/-- Embeds `release.StatusUnknown`. -/
def StatusUnknown : Status := "unknown"

/-- Embeds `release.StatusDeployed`. -/
def StatusDeployed : Status := "deployed"

/-- Embeds `release.StatusSuperseded`. -/
def StatusSuperseded : Status := "superseded"

/-- Embeds `release.StatusFailed`. -/
def StatusFailed : Status := "failed"

/-- Embeds `release.StatusUninstalling`. -/
def StatusUninstalling : Status := "uninstalling"

/-- Embeds `release.StatusPendingInstall`. -/
def StatusPendingInstall : Status := "pending-install"

/-- Embeds `release.StatusPendingUpgrade`. -/
def StatusPendingUpgrade : Status := "pending-upgrade"

/-- Embeds `release.StatusPendingRollback`. -/
def StatusPendingRollback : Status := "pending-rollback"

/-- Embeds `release.Status.String()`, which returns the underlying string. -/
def renderStatus (s : Status) : String := s

/-- Embeds the `ValidStatuses` variable of `pkg/status/status.go`. -/
def ValidStatuses : List String :=
  ["unknown", "deployed", "superseded", "failed",
   "uninstalling", "pending-install", "pending-upgrade", "pending-rollback"]

/-- Embeds `ParseStatus` of `pkg/status/status.go`: a Go
`(release.Status, error)` pair becomes a status together with an optional
error message; the default switch arm returns `StatusUnknown` with an
"invalid status" error. -/
def ParseStatus (s : String) : Status × Option String :=
  if s = "unknown" then (StatusUnknown, none)
  else if s = "deployed" then (StatusDeployed, none)
  else if s = "superseded" then (StatusSuperseded, none)
  else if s = "failed" then (StatusFailed, none)
  else if s = "uninstalling" then (StatusUninstalling, none)
  else if s = "pending-install" then (StatusPendingInstall, none)
  else if s = "pending-upgrade" then (StatusPendingUpgrade, none)
  else if s = "pending-rollback" then (StatusPendingRollback, none)
  else (StatusUnknown, some ("invalid status: " ++ s))

/-- Embeds `ValidStatusesString` of `pkg/status/status.go`: the loop joins
the valid statuses with ", ", prefixing the separator for every index
greater than zero. -/
def ValidStatusesString : String :=
  (ValidStatuses.enum.foldl
    (fun acc p => if 0 < p.1 then acc ++ ", " ++ p.2 else acc ++ p.2) "")

/-- Embeds the fields of helm `release.Info` that the record carries:
timestamps, description, status and notes. Timestamps are modelled as
integers. -/
structure Info where
  FirstDeployed : Int
  LastDeployed : Int
  Deleted : Int
  Description : String
  Status : Status
  Notes : String

deriving instance DecidableEq, Repr for Info

/-- Embeds helm `release.Release`: the named, versioned release record,
with the chart metadata flattened to its name and version strings. -/
structure Release where
  Name : String
  Namespace : String
  Version : Int
  ChartName : String
  ChartVersion : String
  Config : String
  Manifest : String
  Info : Info

deriving instance DecidableEq, Repr for Release

/-- Embeds `statusListToStrings` of `pkg/status/status.go`: renders each
status of the list. -/
def statusListToStrings (statuses : List Status) : List String :=
  statuses.map renderStatus

/-- Renders a Go string slice the way `fmt`'s `%v` verb does: elements
space-separated inside square brackets. -/
def goSliceString (l : List String) : String :=
  "[" ++ String.intercalate " " l ++ "]"

/-- The error kinds `SetStatus` can return: the typed
`ReleaseNotFoundError` and `PreconditionError` of `pkg/status/status.go`,
and the two wrapped `fmt.Errorf` failures for revision lookup and
persistence, with their payloads. -/
inductive SetStatusError where
  | releaseNotFound (releaseName : String)
  | revisionLookupFailed (releaseName : String) (revision : Int) (cause : String)
  | preconditionFailed (currentStatus : Status) (allowedStatuses : List Status)
  | persistenceFailed (releaseName : String) (cause : String)

deriving instance DecidableEq, Repr for SetStatusError

/-- Embeds each error's `Error()` string: `ReleaseNotFoundError.Error`,
`PreconditionError.Error`, and the two `fmt.Errorf` format strings of
`SetStatus`. -/
def SetStatusError.message : SetStatusError → String
  | .releaseNotFound n => "release \"" ++ n ++ "\" not found"
  | .revisionLookupFailed n r cause =>
      "failed to get release " ++ n ++ " revision " ++ toString r ++ ": " ++ cause
  | .preconditionFailed c allowed =>
      "current status \"" ++ c ++ "\" is not in allowed list: " ++
        goSliceString (statusListToStrings allowed)
  | .persistenceFailed n cause =>
      "failed to update release " ++ n ++ ": " ++ cause

/-- Embeds the `errors.As(err, &precondErr)` test of the wrapper: whether
an error is a `PreconditionError`. -/
def SetStatusError.isPreconditionFailed : SetStatusError → Bool
  | .preconditionFailed _ _ => true
  | _ => false

/-- The store operations `SetStatus` consumes from
`cfg.Releases` (helm storage): latest-lookup, lookup-by-name-and-revision
and update, over an abstract store state. -/
structure StoreOps (σ : Type) where
  last : σ → String → Except String Release
  get : σ → String → Int → Except String Release
  update : σ → Release → Except String σ

/-- Embeds the record-resolution step of `SetStatus`
(`pkg/status/status.go` lines 49-61): `revision > 0` uses
`cfg.Releases.Get` and wraps a failure as the revision-lookup error,
otherwise `cfg.Releases.Last` is used and a failure becomes
`ReleaseNotFoundError`. -/
def resolveRelease (ops : StoreOps σ) (st : σ) (releaseName : String)
    (revision : Int) : Except SetStatusError Release :=
  if 0 < revision then
    match ops.get st releaseName revision with
    | .ok rel => .ok rel
    | .error cause => .error (.revisionLookupFailed releaseName revision cause)
  else
    match ops.last st releaseName with
    | .ok rel => .ok rel
    | .error _ => .error (.releaseNotFound releaseName)

/-- Embeds the mutation step of `SetStatus` (`pkg/status/status.go` lines
81-84): status, description and last-deployed timestamp are overwritten,
nothing else. -/
def mutateRelease (rel : Release) (status : Status) (now : Int) : Release :=
  { rel with Info := { rel.Info with
      Status := status,
      Description := "status set to " ++ renderStatus status,
      LastDeployed := now } }

/-- Embeds the persistence step of `SetStatus` (`pkg/status/status.go`
lines 86-91): the mutated record is written through the store's update
operation, and a failure is wrapped as the persistence error, leaving the
store state unchanged. -/
def persistRelease (ops : StoreOps σ) (st : σ) (releaseName : String)
    (rel : Release) (status : Status) (now : Int) :
    Option SetStatusError × σ :=
  match ops.update st (mutateRelease rel status now) with
  | .ok st2 => (none, st2)
  | .error cause => (some (.persistenceFailed releaseName cause), st)

/-- Embeds `SetStatus` of `pkg/status/status.go`: resolve the record,
check the allowed-from precondition (the membership loop is
`List.contains`), mutate, persist. The Go function mutates the store
through `Update` and returns an error; here it returns the optional error
together with the store state after the call, which is unchanged on every
error path because no update is issued (or, for a failed update, the
collaborator's contract leaves the store unchanged). -/
def SetStatus (ops : StoreOps σ) (st : σ) (releaseName : String)
    (status : Status) (revision : Int) (allowedFromStatuses : List Status)
    (now : Int) : Option SetStatusError × σ :=
  match resolveRelease ops st releaseName revision with
  | .error e => (some e, st)
  | .ok rel =>
    if 0 < allowedFromStatuses.length then
      if allowedFromStatuses.contains rel.Info.Status then
        persistRelease ops st releaseName rel status now
      else
        (some (.preconditionFailed rel.Info.Status allowedFromStatuses), st)
    else
      persistRelease ops st releaseName rel status now

/-- Embeds the `--from` validation loop of `runWithConfigFactory`: each
entry is parsed in order and the first invalid entry aborts with the
"invalid --from status" error message. -/
def parseFromStatuses : List String → Except String (List Status)
  | [] => .ok []
  | s :: rest =>
    match (ParseStatus s).2 with
    | some e =>
        .error ("invalid --from status \"" ++ s ++ "\": " ++ e ++
          "\nValid statuses: " ++ ValidStatusesString)
    | none =>
      match parseFromStatuses rest with
      | .ok l => .ok ((ParseStatus s).1 :: l)
      | .error m => .error m

/-- Observable outcome of one wrapper invocation: the lines printed to
stdout, the returned error message, and the store state after the call
(`none` when no store connection was ever constructed). -/
structure RunResult (σ : Type) where
  output : List String
  error : Option String
  store : Option σ

deriving instance DecidableEq, Repr for RunResult

/-- Embeds the tail of `runWithConfigFactory` of `main.go`, from the
`SetStatus` call on: convert a `PreconditionError` to a skip message when
`--no-fail` is set, propagate every other error, and print the success
message (mentioning the revision when one was given) otherwise. -/
def runSetStatusPhase (ops : StoreOps σ) (st : σ)
    (releaseName statusStr : String) (rev : Int)
    (allowedFromStatuses : List Status) (noFail : Bool) (now : Int) :
    RunResult σ :=
  match SetStatus ops st releaseName (ParseStatus statusStr).1 rev
      allowedFromStatuses now with
  | (some e, st2) =>
    if e.isPreconditionFailed && noFail then
      ⟨["Skipped: " ++ e.message], none, some st2⟩
    else
      ⟨[], some e.message, some st2⟩
  | (none, st2) =>
    if 0 < rev then
      ⟨["Release \"" ++ releaseName ++ "\" revision " ++ toString rev ++
          " status set to \"" ++ statusStr ++ "\""], none, some st2⟩
    else
      ⟨["Release \"" ++ releaseName ++ "\" status set to \"" ++
          statusStr ++ "\""], none, some st2⟩

/-- Embeds `runWithConfigFactory` of `main.go`: validate the target
status, validate every `--from` entry, build the configuration from the
factory, then run the `SetStatus` phase. -/
def runWithConfigFactory (ops : StoreOps σ) (releaseName statusStr : String)
    (rev : Int) (fromStatuses : List String) (noFail : Bool)
    (configFactory : Except String σ) (now : Int) : RunResult σ :=
  match (ParseStatus statusStr).2 with
  | some e =>
      ⟨[], some (e ++ "\nValid statuses: " ++ ValidStatusesString), none⟩
  | none =>
    match parseFromStatuses fromStatuses with
    | .error msg => ⟨[], some msg, none⟩
    | .ok allowedFromStatuses =>
      match configFactory with
      | .error cause =>
          ⟨[], some ("failed to create configuration: " ++ cause), none⟩
      | .ok st =>
          runSetStatusPhase ops st releaseName statusStr rev
            allowedFromStatuses noFail now

/-- In-memory store: a list of release records, as used through helm's
memory driver by the repository's tests. -/
abbrev MemStore := List Release

/-- Lookup by name and revision in the in-memory store. -/
def memGet (store : MemStore) (name : String) (version : Int) :
    Except String Release :=
  match store.find? (fun r => r.Name == name && r.Version == version) with
  | some r => .ok r
  | none => .error "release: not found"

/-- Latest-revision lookup in the in-memory store: the record of the
given name with the greatest revision number. -/
def memLast (store : MemStore) (name : String) : Except String Release :=
  match (store.filter (fun r => r.Name == name)).foldl
      (fun acc r =>
        match acc with
        | none => some r
        | some m => if m.Version < r.Version then some r else some m)
      none with
  | some r => .ok r
  | none => .error "release: not found"

/-- Update in the in-memory store: overwrite the record at its own
name-and-revision key, failing when no such record exists. -/
def memUpdate (store : MemStore) (rel : Release) : Except String MemStore :=
  if store.any (fun r => r.Name == rel.Name && r.Version == rel.Version) then
    .ok (store.map (fun r =>
      if r.Name == rel.Name && r.Version == rel.Version then rel else r))
  else
    .error "release: not found"

/-- The in-memory store packaged as the store-operations record. -/
def memStoreOps : StoreOps MemStore :=
  { last := memLast, get := memGet, update := memUpdate }

/-- Sample release record used as concrete input for witnesses. -/
def sampleRelease : Release :=
  { Name := "my-release", Namespace := "default", Version := 1,
    ChartName := "test-chart", ChartVersion := "1.0.0",
    Config := "", Manifest := "",
    Info := { FirstDeployed := 1, LastDeployed := 1, Deleted := 0,
              Description := "Install complete", Status := StatusDeployed,
              Notes := "" } }

/-- Second revision of the sample release, used for multi-revision
witnesses. -/
def sampleRelease2 : Release :=
  { Name := "my-release", Namespace := "default", Version := 2,
    ChartName := "test-chart", ChartVersion := "1.0.0",
    Config := "", Manifest := "",
    Info := { FirstDeployed := 2, LastDeployed := 2, Deleted := 0,
              Description := "Upgrade complete", Status := StatusSuperseded,
              Notes := "" } }

/-- Store operations whose lookups succeed with the sample release but
whose update always fails; concrete input exercising the persistence
failure path. -/
def failingUpdateOps : StoreOps Unit :=
  { last := fun _ _ => .ok sampleRelease,
    get := fun _ _ _ => .ok sampleRelease,
    update := fun _ _ => .error "update failed" }

/-- Store operations whose latest-lookup and revision-lookup fail with
distinct causes, making the routing of a revision selector observable. -/
def probeOps : StoreOps Unit :=
  { last := fun _ _ => .error "last was called",
    get := fun _ _ _ => .error "get was called",
    update := fun st _ => .ok st }

/-! Helper equation lemmas for case analysis on the embedded functions. -/

/-- Equation lemma: resolving a positive revision with a successful
lookup yields the record. -/
theorem resolveRelease_pos_ok {σ : Type} (ops : StoreOps σ) (st : σ)
    (name : String) (rev : Int) (rel : Release) (hrev : 0 < rev)
    (hg : ops.get st name rev = .ok rel) :
    resolveRelease ops st name rev = .ok rel := by
  unfold resolveRelease
  rw [if_pos hrev, hg]

/-- Equation lemma: resolving a positive revision with a failed lookup
yields the revision-lookup error. -/
theorem resolveRelease_pos_err {σ : Type} (ops : StoreOps σ) (st : σ)
    (name : String) (rev : Int) (cause : String) (hrev : 0 < rev)
    (hg : ops.get st name rev = .error cause) :
    resolveRelease ops st name rev =
      .error (.revisionLookupFailed name rev cause) := by
  unfold resolveRelease
  rw [if_pos hrev, hg]

/-- Equation lemma: resolving a non-positive revision with a successful
latest-lookup yields the record. -/
theorem resolveRelease_nonpos_ok {σ : Type} (ops : StoreOps σ) (st : σ)
    (name : String) (rev : Int) (rel : Release) (hrev : ¬ 0 < rev)
    (hl : ops.last st name = .ok rel) :
    resolveRelease ops st name rev = .ok rel := by
  unfold resolveRelease
  rw [if_neg hrev, hl]

/-- Equation lemma: resolving a non-positive revision with a failed
latest-lookup yields the not-found error. -/
theorem resolveRelease_nonpos_err {σ : Type} (ops : StoreOps σ) (st : σ)
    (name : String) (rev : Int) (cause : String) (hrev : ¬ 0 < rev)
    (hl : ops.last st name = .error cause) :
    resolveRelease ops st name rev = .error (.releaseNotFound name) := by
  unfold resolveRelease
  rw [if_neg hrev, hl]

/-- Equation lemma: a successful update makes the persistence step return
the updated store with no error. -/
theorem persistRelease_ok_eq {σ : Type} (ops : StoreOps σ) (st st2 : σ)
    (name : String) (rel : Release) (status : Status) (now : Int)
    (hupd : ops.update st (mutateRelease rel status now) = .ok st2) :
    persistRelease ops st name rel status now = (none, st2) := by
  unfold persistRelease
  rw [hupd]

/-- Equation lemma: a failed update makes the persistence step return the
persistence error with the unchanged store. -/
theorem persistRelease_err_eq {σ : Type} (ops : StoreOps σ) (st : σ)
    (name : String) (rel : Release) (status : Status) (now : Int)
    (cause : String)
    (hupd : ops.update st (mutateRelease rel status now) = .error cause) :
    persistRelease ops st name rel status now =
      (some (.persistenceFailed name cause), st) := by
  unfold persistRelease
  rw [hupd]

/-- The persistence step either succeeds or returns a persistence error;
it never returns any other error kind. -/
theorem persistRelease_fst {σ : Type} (ops : StoreOps σ) (st : σ)
    (name : String) (rel : Release) (status : Status) (now : Int) :
    (persistRelease ops st name rel status now).1 = none ∨
      ∃ cause, (persistRelease ops st name rel status now).1 =
        some (.persistenceFailed name cause) := by
  cases hu : ops.update st (mutateRelease rel status now) with
  | ok st2 => left; rw [persistRelease_ok_eq ops st st2 name rel status now hu]
  | error cause =>
      right
      exact ⟨cause, by rw [persistRelease_err_eq ops st name rel status now cause hu]⟩

/-- Inversion: if the persistence step reports no error, the update
succeeded with exactly the returned store. -/
theorem persistRelease_none_inv {σ : Type} (ops : StoreOps σ) (st st2 : σ)
    (name : String) (rel : Release) (status : Status) (now : Int)
    (h : persistRelease ops st name rel status now = (none, st2)) :
    ops.update st (mutateRelease rel status now) = .ok st2 := by
  cases hu : ops.update st (mutateRelease rel status now) with
  | ok st3 =>
      rw [persistRelease_ok_eq ops st st3 name rel status now hu] at h
      rw [Prod.mk.injEq] at h
      rw [h.2]
  | error cause =>
      rw [persistRelease_err_eq ops st name rel status now cause hu] at h
      exact absurd (congrArg Prod.fst h) (by simp)

/-- Equation lemma: SetStatus with a failed resolution returns the error
and the unchanged store. -/
theorem SetStatus_err_eq {σ : Type} (ops : StoreOps σ) (st : σ)
    (name : String) (status : Status) (rev : Int) (allowed : List Status)
    (now : Int) (e : SetStatusError)
    (hres : resolveRelease ops st name rev = .error e) :
    SetStatus ops st name status rev allowed now = (some e, st) := by
  unfold SetStatus
  rw [hres]

/-- Equation lemma: SetStatus with a successful resolution proceeds to the
precondition check and the persistence step. -/
theorem SetStatus_ok_eq {σ : Type} (ops : StoreOps σ) (st : σ)
    (name : String) (status : Status) (rev : Int) (allowed : List Status)
    (now : Int) (rel : Release)
    (hres : resolveRelease ops st name rev = .ok rel) :
    SetStatus ops st name status rev allowed now =
      if 0 < allowed.length then
        if allowed.contains rel.Info.Status then
          persistRelease ops st name rel status now
        else
          (some (.preconditionFailed rel.Info.Status allowed), st)
      else
        persistRelease ops st name rel status now := by
  unfold SetStatus
  rw [hres]

/-- C6: render after parse is the identity on each of the 8 canonical
status strings, and parsing any string outside the canonical set —
including the empty string, case variants and padded variants — fails
with the invalid-status error; no trimming, case-folding or aliasing is
performed. -/
theorem parse_render_bijection :
    (∀ s ∈ ValidStatuses,
        (ParseStatus s).2 = none ∧ renderStatus (ParseStatus s).1 = s)
    ∧ ∀ s : String, s ∉ ValidStatuses →
        (ParseStatus s).2 = some ("invalid status: " ++ s) := by
  constructor
  · decide
  · intro s hs
    unfold ParseStatus
    split_ifs with h1 h2 h3 h4 h5 h6 h7 h8
    all_goals first
      | rfl
      | (subst_vars; exact absurd (by decide) hs)

/-- Witness for C6 at concrete inputs: a canonical string round-trips,
and the empty string, a case variant and a padded variant each fail. -/
theorem parse_render_bijection_witness :
    ((ParseStatus "pending-rollback").2 = none ∧
      renderStatus (ParseStatus "pending-rollback").1 = "pending-rollback")
    ∧ (ParseStatus "Deployed").2 = some ("invalid status: " ++ "Deployed")
    ∧ (ParseStatus "").2 = some ("invalid status: " ++ "")
    ∧ (ParseStatus " deployed").2 = some ("invalid status: " ++ " deployed") :=
  ⟨parse_render_bijection.1 "pending-rollback" (by decide),
   parse_render_bijection.2 "Deployed" (by decide),
   parse_render_bijection.2 "" (by decide),
   parse_render_bijection.2 " deployed" (by decide)⟩

/-- C10: on any input on which parsing reports an error, ParseStatus
returns StatusUnknown ("unknown") as the status component of its result,
so a caller ignoring the error observes "unknown". -/
theorem parse_invalid_returns_unknown (s : String)
    (h : (ParseStatus s).2 ≠ none) : (ParseStatus s).1 = StatusUnknown := by
  unfold ParseStatus at h ⊢
  split_ifs at h ⊢ <;> simp_all

/-- Witness for C10 at the concrete invalid input "bogus". -/
theorem parse_invalid_returns_unknown_witness :
    (ParseStatus "bogus").2 ≠ none ∧
      (ParseStatus "bogus").1 = StatusUnknown :=
  ⟨by decide, parse_invalid_returns_unknown "bogus" (by decide)⟩

/-- C1: with a resolved record, SetStatus fails with a precondition error
precisely when the allowed-from set is non-empty and the record's current
status is not a member of it (membership as list membership, so order and
duplicates are irrelevant); an empty allowed-from set passes for every
current status; and on a precondition failure the error carries the
current status and the allowed set while the store state is returned
unchanged — no store write occurs. -/
theorem setStatus_precondition_characterization {σ : Type} (ops : StoreOps σ)
    (st : σ) (name : String) (status : Status) (rev : Int)
    (allowed : List Status) (now : Int) (rel : Release)
    (hres : resolveRelease ops st name rev = .ok rel) :
    ((∃ c a, (SetStatus ops st name status rev allowed now).1 =
        some (.preconditionFailed c a)) ↔
      allowed ≠ [] ∧ rel.Info.Status ∉ allowed)
    ∧ (allowed ≠ [] ∧ rel.Info.Status ∉ allowed →
        SetStatus ops st name status rev allowed now =
          (some (.preconditionFailed rel.Info.Status allowed), st)) := by
  rw [SetStatus_ok_eq ops st name status rev allowed now rel hres]
  by_cases h0 : 0 < allowed.length
  · rw [if_pos h0]
    have hne : allowed ≠ [] := List.length_pos.mp h0
    by_cases hmem : allowed.contains rel.Info.Status
    · rw [if_pos hmem]
      have hm : rel.Info.Status ∈ allowed := List.elem_iff.mp hmem
      constructor
      · constructor
        · rintro ⟨c, a, hca⟩
          rcases persistRelease_fst ops st name rel status now with hn | ⟨cause, hc⟩
          · rw [hn] at hca; simp at hca
          · rw [hc] at hca; simp at hca
        · rintro ⟨-, hnot⟩
          exact absurd hm hnot
      · rintro ⟨-, hnot⟩
        exact absurd hm hnot
    · rw [if_neg hmem]
      have hnm : rel.Info.Status ∉ allowed := fun hin => hmem (List.elem_iff.mpr hin)
      refine ⟨⟨fun _ => ⟨hne, hnm⟩, fun _ => ⟨rel.Info.Status, allowed, rfl⟩⟩, fun _ => rfl⟩
  · rw [if_neg h0]
    have hemp : allowed = [] := by
      cases allowed with
      | nil => rfl
      | cons a l => exact absurd (by simp) h0
    constructor
    · constructor
      · rintro ⟨c, a, hca⟩
        rcases persistRelease_fst ops st name rel status now with hn | ⟨cause, hc⟩
        · rw [hn] at hca; simp at hca
        · rw [hc] at hca; simp at hca
      · rintro ⟨hne, -⟩
        exact absurd hemp hne
    · rintro ⟨hne, -⟩
      exact absurd hemp hne

/-- Witness for C1: a deployed release with a non-matching singleton
allowed-from set fails the precondition and the store is unchanged. -/
theorem setStatus_precondition_characterization_witness :
    resolveRelease memStoreOps [sampleRelease] "my-release" 0 =
      .ok sampleRelease ∧
    SetStatus memStoreOps [sampleRelease] "my-release" StatusFailed 0
        [StatusPendingUpgrade] 7 =
      (some (.preconditionFailed sampleRelease.Info.Status
        [StatusPendingUpgrade]), [sampleRelease]) :=
  ⟨rfl,
   (setStatus_precondition_characterization memStoreOps [sampleRelease]
      "my-release" StatusFailed 0 [StatusPendingUpgrade] 7 sampleRelease
      rfl).2 ⟨by decide, by decide⟩⟩

/-- C3: a failed latest-lookup (revision selector 0) is classified as the
release-not-found error carrying the release name; a failed
explicit-revision lookup (r > 0) is classified as the distinct
revision-lookup error carrying the name, the requested revision and the
backend's cause; and with a positive explicit revision the result is
never the release-not-found error. -/
theorem setStatus_lookup_error_classification {σ : Type} (ops : StoreOps σ)
    (st : σ) (name : String) (status : Status) (rev : Int)
    (allowed : List Status) (now : Int) (cause : String) :
    (ops.last st name = .error cause →
      SetStatus ops st name status 0 allowed now =
        (some (.releaseNotFound name), st))
    ∧ (0 < rev → ops.get st name rev = .error cause →
        SetStatus ops st name status rev allowed now =
          (some (.revisionLookupFailed name rev cause), st))
    ∧ (0 < rev → ∀ n2,
        (SetStatus ops st name status rev allowed now).1 ≠
          some (.releaseNotFound n2)) := by
  refine ⟨?_, ?_, ?_⟩
  · intro hl
    exact SetStatus_err_eq ops st name status 0 allowed now _
      (resolveRelease_nonpos_err ops st name 0 cause (by omega) hl)
  · intro hrev hg
    exact SetStatus_err_eq ops st name status rev allowed now _
      (resolveRelease_pos_err ops st name rev cause hrev hg)
  · intro hrev n2
    cases hg : ops.get st name rev with
    | error c =>
        rw [SetStatus_err_eq ops st name status rev allowed now _
          (resolveRelease_pos_err ops st name rev c hrev hg)]
        simp
    | ok rel =>
        rw [SetStatus_ok_eq ops st name status rev allowed now rel
          (resolveRelease_pos_ok ops st name rev rel hrev hg)]
        split_ifs with h0 hmem
        · rcases persistRelease_fst ops st name rel status now with hn | ⟨c2, hc⟩
          · rw [hn]; simp
          · rw [hc]; simp
        · simp
        · rcases persistRelease_fst ops st name rel status now with hn | ⟨c2, hc⟩
          · rw [hn]; simp
          · rw [hc]; simp

/-- Witness for C3: on an empty store, the "latest" selector yields the
not-found error and an explicit revision yields the revision-lookup
error for the same non-existent name. -/
theorem setStatus_lookup_error_classification_witness :
    SetStatus memStoreOps [] "ghost" StatusFailed 0 [] 5 =
      (some (.releaseNotFound "ghost"), []) ∧
    ((0 : Int) < 3 ∧
      SetStatus memStoreOps [] "ghost" StatusFailed 3 [] 5 =
        (some (.revisionLookupFailed "ghost" 3 "release: not found"), [])) :=
  ⟨(setStatus_lookup_error_classification memStoreOps [] "ghost"
      StatusFailed 3 [] 5 "release: not found").1 rfl,
   by decide,
   (setStatus_lookup_error_classification memStoreOps [] "ghost"
      StatusFailed 3 [] 5 "release: not found").2.1 (by decide) rfl⟩

/-- C8: when the store's update operation fails, SetStatus returns the
persistence error carrying the release name and the underlying cause,
and the store state is returned unchanged — the in-memory mutation is
discarded. -/
theorem setStatus_persistence_failure {σ : Type} (ops : StoreOps σ) (st : σ)
    (name : String) (status : Status) (rev : Int) (allowed : List Status)
    (now : Int) (rel : Release) (cause : String)
    (hres : resolveRelease ops st name rev = .ok rel)
    (hpre : allowed = [] ∨ rel.Info.Status ∈ allowed)
    (hupd : ops.update st (mutateRelease rel status now) = .error cause) :
    SetStatus ops st name status rev allowed now =
      (some (.persistenceFailed name cause), st) := by
  rw [SetStatus_ok_eq ops st name status rev allowed now rel hres]
  have hper := persistRelease_err_eq ops st name rel status now cause hupd
  rcases hpre with h | h
  · subst h
    rw [if_neg (by simp)]
    exact hper
  · have hc : allowed.contains rel.Info.Status = true := List.elem_iff.mpr h
    by_cases h0 : 0 < allowed.length
    · rw [if_pos h0, if_pos hc]
      exact hper
    · rw [if_neg h0]
      exact hper

/-- Witness for C8: store operations whose update always fails make
SetStatus report the persistence failure with the unchanged store state. -/
theorem setStatus_persistence_failure_witness :
    resolveRelease failingUpdateOps () "my-release" 0 = .ok sampleRelease ∧
    SetStatus failingUpdateOps () "my-release" StatusFailed 0 [] 5 =
      (some (.persistenceFailed "my-release" "update failed"), ()) :=
  ⟨rfl,
   setStatus_persistence_failure failingUpdateOps () "my-release"
     StatusFailed 0 [] 5 sampleRelease "update failed" rfl (Or.inl rfl) rfl⟩

/-- C4: the mutation step changes exactly the status, the description
(deterministically "status set to " followed by the rendered target) and
the last-deployed timestamp; every other field of the record is
unchanged; and a successful SetStatus writes exactly this mutated record
through the store's update operation. -/
theorem setStatus_success_frame (rel : Release) (status : Status) (now : Int) :
    (mutateRelease rel status now).Info.Status = status
    ∧ (mutateRelease rel status now).Info.Description =
        "status set to " ++ renderStatus status
    ∧ (mutateRelease rel status now).Info.LastDeployed = now
    ∧ (mutateRelease rel status now).Name = rel.Name
    ∧ (mutateRelease rel status now).Version = rel.Version
    ∧ (mutateRelease rel status now).Namespace = rel.Namespace
    ∧ (mutateRelease rel status now).ChartName = rel.ChartName
    ∧ (mutateRelease rel status now).ChartVersion = rel.ChartVersion
    ∧ (mutateRelease rel status now).Config = rel.Config
    ∧ (mutateRelease rel status now).Manifest = rel.Manifest
    ∧ (mutateRelease rel status now).Info.FirstDeployed = rel.Info.FirstDeployed
    ∧ (mutateRelease rel status now).Info.Deleted = rel.Info.Deleted
    ∧ (mutateRelease rel status now).Info.Notes = rel.Info.Notes
    ∧ ∀ (σ : Type) (ops : StoreOps σ) (st st2 : σ) (name : String)
        (rev : Int) (allowed : List Status),
        resolveRelease ops st name rev = .ok rel →
        SetStatus ops st name status rev allowed now = (none, st2) →
        ops.update st (mutateRelease rel status now) = .ok st2 := by
  refine ⟨rfl, rfl, rfl, rfl, rfl, rfl, rfl, rfl, rfl, rfl, rfl, rfl, rfl, ?_⟩
  intro σ ops st st2 name rev allowed hres hset
  rw [SetStatus_ok_eq ops st name status rev allowed now rel hres] at hset
  split_ifs at hset with h0 hmem
  · exact persistRelease_none_inv ops st st2 name rel status now hset
  · exact absurd (congrArg Prod.fst hset) (by simp)
  · exact persistRelease_none_inv ops st st2 name rel status now hset

/-- Witness for C4: a concrete successful call writes the mutated sample
record and nothing else. -/
theorem setStatus_success_frame_witness :
    resolveRelease memStoreOps [sampleRelease] "my-release" 0 =
      .ok sampleRelease ∧
    SetStatus memStoreOps [sampleRelease] "my-release" StatusFailed 0 [] 7 =
      (none, [mutateRelease sampleRelease StatusFailed 7]) ∧
    memStoreOps.update [sampleRelease]
        (mutateRelease sampleRelease StatusFailed 7) =
      .ok [mutateRelease sampleRelease StatusFailed 7] :=
  ⟨rfl, by decide,
   (setStatus_success_frame sampleRelease StatusFailed
       7).2.2.2.2.2.2.2.2.2.2.2.2.2 MemStore memStoreOps [sampleRelease]
     [mutateRelease sampleRelease StatusFailed 7] "my-release" 0 [] rfl
     (by decide)⟩

/-- C9 as amended: a revision selector r > 0 routes the lookup to the
store's lookup-by-name-and-revision operation, and every r ≤ 0 — zero
and negative alike — routes it to the latest-lookup; negative revisions
are not rejected as an input-validation error. -/
theorem revision_routing {σ : Type} (ops : StoreOps σ) (st : σ)
    (name : String) (rev : Int) :
    (0 < rev → resolveRelease ops st name rev =
      (match ops.get st name rev with
       | .ok rel => .ok rel
       | .error cause => .error (.revisionLookupFailed name rev cause)))
    ∧ (rev ≤ 0 → resolveRelease ops st name rev =
      (match ops.last st name with
       | .ok rel => .ok rel
       | .error _ => .error (.releaseNotFound name))) := by
  constructor
  · intro h
    unfold resolveRelease
    rw [if_pos h]
  · intro h
    unfold resolveRelease
    rw [if_neg (by omega)]

/-- Witness for the amended C9: with probe operations, revision 2 takes
the revision lookup and revision -1 takes the latest-lookup. -/
theorem revision_routing_witness :
    ((0 : Int) < 2 ∧ resolveRelease probeOps () "my-release" 2 =
        .error (.revisionLookupFailed "my-release" 2 "get was called"))
    ∧ ((-1 : Int) ≤ 0 ∧ resolveRelease probeOps () "my-release" (-1) =
        .error (.releaseNotFound "my-release")) :=
  ⟨⟨by decide,
    ((revision_routing probeOps () "my-release" 2).1 (by decide)).trans rfl⟩,
   ⟨by decide,
    ((revision_routing probeOps () "my-release" (-1)).2 (by decide)).trans rfl⟩⟩

/-- C9 counterexample: with revision selector -1 the code calls the
store's latest-lookup — the outcome is the latest-lookup classification,
and the revision lookup's distinct probe cause never appears — so a
negative selector is silently routed to the latest-lookup rather than
treated as an input-validation error. -/
theorem negative_revision_routed_to_latest :
    resolveRelease probeOps () "my-release" (-1) =
      .error (.releaseNotFound "my-release") ∧
    SetStatus probeOps () "my-release" StatusFailed (-1) [] 0 =
      (some (.releaseNotFound "my-release"), ()) :=
  ⟨rfl, rfl⟩

/-- Equation lemma: an invalid target status makes the wrapper fail with
the invalid-status message extended by the valid-values hint, before any
store interaction. -/
theorem run_invalid_target_eq {σ : Type} (ops : StoreOps σ)
    (releaseName statusStr : String) (rev : Int) (fromStatuses : List String)
    (noFail : Bool) (configFactory : Except String σ) (now : Int) (e : String)
    (h : (ParseStatus statusStr).2 = some e) :
    runWithConfigFactory ops releaseName statusStr rev fromStatuses noFail
        configFactory now =
      ⟨[], some (e ++ "\nValid statuses: " ++ ValidStatusesString), none⟩ := by
  unfold runWithConfigFactory
  rw [h]

/-- Equation lemma: with a valid target but a failing allowed-from
validation, the wrapper fails with the validation message, before any
store interaction. -/
theorem run_invalid_from_eq {σ : Type} (ops : StoreOps σ)
    (releaseName statusStr : String) (rev : Int) (fromStatuses : List String)
    (noFail : Bool) (configFactory : Except String σ) (now : Int)
    (msg : String)
    (htarget : (ParseStatus statusStr).2 = none)
    (hfrom : parseFromStatuses fromStatuses = .error msg) :
    runWithConfigFactory ops releaseName statusStr rev fromStatuses noFail
        configFactory now = ⟨[], some msg, none⟩ := by
  unfold runWithConfigFactory
  rw [htarget, hfrom]

/-- Equation lemma: with valid inputs and a successful factory, the
wrapper runs the SetStatus phase on the factory's store state. -/
theorem run_ok_eq {σ : Type} (ops : StoreOps σ) (st : σ)
    (releaseName statusStr : String) (rev : Int) (fromStatuses : List String)
    (noFail : Bool) (now : Int) (allowed : List Status)
    (htarget : (ParseStatus statusStr).2 = none)
    (hfrom : parseFromStatuses fromStatuses = .ok allowed) :
    runWithConfigFactory ops releaseName statusStr rev fromStatuses noFail
        (.ok st) now =
      runSetStatusPhase ops st releaseName statusStr rev allowed noFail now := by
  unfold runWithConfigFactory
  rw [htarget, hfrom]

/-- A list with an entry that fails to parse makes the allowed-from
validation fail, with a message ending in the valid-values hint. -/
theorem parseFromStatuses_err_of_bad (l : List String)
    (h : ∃ s ∈ l, (ParseStatus s).2 ≠ none) :
    ∃ pre, parseFromStatuses l =
      .error (pre ++ "\nValid statuses: " ++ ValidStatusesString) := by
  induction l with
  | nil =>
      rcases h with ⟨s, hs, -⟩
      cases hs
  | cons a l ih =>
      rcases h with ⟨s, hs, hbad⟩
      rcases List.mem_cons.mp hs with rfl | hs2
      · cases hpa : (ParseStatus s).2 with
        | none => exact absurd hpa hbad
        | some e =>
            refine ⟨"invalid --from status \"" ++ s ++ "\": " ++ e, ?_⟩
            unfold parseFromStatuses
            rw [hpa]
      · cases hpa : (ParseStatus a).2 with
        | some e =>
            refine ⟨"invalid --from status \"" ++ a ++ "\": " ++ e, ?_⟩
            unfold parseFromStatuses
            rw [hpa]
        | none =>
            obtain ⟨pre, hp⟩ := ih ⟨s, hs2, hbad⟩
            refine ⟨pre, ?_⟩
            unfold parseFromStatuses
            rw [hpa, hp]

/-- C2: when the wrapper's inputs validate, the factory succeeds and
SetStatus fails, the wrapper returns success exactly when the failure is
a precondition error and the skip flag is set; in that case it emits a
skip message carrying the literal current status and the literal
allowed-status list; a precondition error with the flag unset, and every
other error kind regardless of the flag, propagate as hard failures. -/
theorem run_skip_policy {σ : Type} (ops : StoreOps σ) (st : σ)
    (releaseName statusStr : String) (rev : Int) (fromStatuses : List String)
    (noFail : Bool) (now : Int) (allowed : List Status) (e : SetStatusError)
    (st2 : σ)
    (htarget : (ParseStatus statusStr).2 = none)
    (hfrom : parseFromStatuses fromStatuses = .ok allowed)
    (hset : SetStatus ops st releaseName (ParseStatus statusStr).1 rev
        allowed now = (some e, st2)) :
    ((runWithConfigFactory ops releaseName statusStr rev fromStatuses noFail
        (.ok st) now).error = none ↔
      (e.isPreconditionFailed = true ∧ noFail = true))
    ∧ (∀ c a, e = .preconditionFailed c a → noFail = true →
        runWithConfigFactory ops releaseName statusStr rev fromStatuses
            noFail (.ok st) now =
          ⟨["Skipped: " ++ ("current status \"" ++ c ++
              "\" is not in allowed list: " ++
              goSliceString (statusListToStrings a))], none, some st2⟩)
    ∧ (¬ (e.isPreconditionFailed = true ∧ noFail = true) →
        runWithConfigFactory ops releaseName statusStr rev fromStatuses
            noFail (.ok st) now = ⟨[], some e.message, some st2⟩) := by
  rw [run_ok_eq ops st releaseName statusStr rev fromStatuses noFail now
    allowed htarget hfrom]
  have hphase : runSetStatusPhase ops st releaseName statusStr rev allowed
      noFail now =
      if e.isPreconditionFailed && noFail then
        ⟨["Skipped: " ++ e.message], none, some st2⟩
      else
        ⟨[], some e.message, some st2⟩ := by
    unfold runSetStatusPhase
    rw [hset]
  rw [hphase]
  by_cases hb : e.isPreconditionFailed && noFail
  · rw [if_pos hb]
    simp only [Bool.and_eq_true] at hb
    refine ⟨⟨fun _ => hb, fun _ => rfl⟩, ?_, fun hc => absurd hb hc⟩
    intro c a he _
    subst he
    rfl
  · rw [if_neg hb]
    simp only [Bool.and_eq_true] at hb
    refine ⟨⟨fun h => absurd h (by simp), fun h => absurd h hb⟩, ?_, fun _ => rfl⟩
    intro c a he hn
    exact absurd ⟨by rw [he]; rfl, hn⟩ hb

/-- Witness for C2: a deployed release, a non-matching allowed-from set
and the skip flag produce the skip outcome with the literal current
status and allowed list in the message. -/
theorem run_skip_policy_witness :
    runWithConfigFactory memStoreOps "my-release" "failed" 0
        ["pending-upgrade"] true (.ok [sampleRelease]) 7 =
      ⟨["Skipped: " ++ ("current status \"" ++ StatusDeployed ++
          "\" is not in allowed list: " ++
          goSliceString (statusListToStrings [StatusPendingUpgrade]))],
        none, some [sampleRelease]⟩ :=
  (run_skip_policy memStoreOps [sampleRelease] "my-release" "failed" 0
    ["pending-upgrade"] true 7 [StatusPendingUpgrade]
    (.preconditionFailed StatusDeployed [StatusPendingUpgrade])
    [sampleRelease] rfl rfl (by decide)).2.1 StatusDeployed
    [StatusPendingUpgrade] rfl rfl

/-- C7: when the target status string or any allowed-from entry is not
canonical, the wrapper fails with an error message ending in the list of
all valid status values, its result carries no store state, and the
result does not depend on the store-connection factory or on the store
operations — so the factory is never consulted and no store read or
write occurs. -/
theorem run_validation_before_store {σ1 σ2 : Type} (ops1 : StoreOps σ1)
    (ops2 : StoreOps σ2) (factory1 : Except String σ1)
    (factory2 : Except String σ2) (releaseName statusStr : String)
    (rev : Int) (fromStatuses : List String) (noFail : Bool) (now : Int)
    (hbad : (ParseStatus statusStr).2 ≠ none ∨
      ∃ s ∈ fromStatuses, (ParseStatus s).2 ≠ none) :
    (runWithConfigFactory ops1 releaseName statusStr rev fromStatuses noFail
        factory1 now).store = none
    ∧ (runWithConfigFactory ops2 releaseName statusStr rev fromStatuses
        noFail factory2 now).store = none
    ∧ (runWithConfigFactory ops1 releaseName statusStr rev fromStatuses
          noFail factory1 now).output =
        (runWithConfigFactory ops2 releaseName statusStr rev fromStatuses
          noFail factory2 now).output
    ∧ (runWithConfigFactory ops1 releaseName statusStr rev fromStatuses
          noFail factory1 now).error =
        (runWithConfigFactory ops2 releaseName statusStr rev fromStatuses
          noFail factory2 now).error
    ∧ (∃ pre, (runWithConfigFactory ops1 releaseName statusStr rev
          fromStatuses noFail factory1 now).error =
        some (pre ++ "\nValid statuses: " ++ ValidStatusesString))
    ∧ ValidStatusesString =
        "unknown, deployed, superseded, failed, uninstalling, pending-install, pending-upgrade, pending-rollback" := by
  cases hpt : (ParseStatus statusStr).2 with
  | some e =>
      rw [run_invalid_target_eq ops1 releaseName statusStr rev fromStatuses
        noFail factory1 now e hpt]
      rw [run_invalid_target_eq ops2 releaseName statusStr rev fromStatuses
        noFail factory2 now e hpt]
      exact ⟨rfl, rfl, rfl, rfl, ⟨e, rfl⟩, by decide⟩
  | none =>
      have hfe : ∃ s ∈ fromStatuses, (ParseStatus s).2 ≠ none := by
        rcases hbad with hb | hb
        · exact absurd hpt hb
        · exact hb
      obtain ⟨pre, hp⟩ := parseFromStatuses_err_of_bad fromStatuses hfe
      rw [run_invalid_from_eq ops1 releaseName statusStr rev fromStatuses
        noFail factory1 now _ hpt hp]
      rw [run_invalid_from_eq ops2 releaseName statusStr rev fromStatuses
        noFail factory2 now _ hpt hp]
      exact ⟨rfl, rfl, rfl, rfl, ⟨pre, rfl⟩, by decide⟩

/-- Witness for C7: an invalid target status fails identically under a
failing factory and under a working in-memory store, with no store state
in the result. -/
theorem run_validation_before_store_witness :
    (ParseStatus "bogus").2 ≠ none ∧
    (runWithConfigFactory memStoreOps "my-release" "bogus" 0 [] false
        (.error "factory should not be called") 7).store = none ∧
    (runWithConfigFactory memStoreOps "my-release" "bogus" 0 [] false
        (.error "factory should not be called") 7).error =
      (runWithConfigFactory probeOps "my-release" "bogus" 0 [] false
        (.ok ()) 7).error :=
  ⟨by decide,
   (run_validation_before_store memStoreOps probeOps
      (.error "factory should not be called") (.ok ()) "my-release" "bogus"
      0 [] false 7 (Or.inl (by decide))).1,
   (run_validation_before_store memStoreOps probeOps
      (.error "factory should not be called") (.ok ()) "my-release" "bogus"
      0 [] false 7 (Or.inl (by decide))).2.2.2.1⟩

/-- Inversion: a successful SetStatus resolved some record and wrote
exactly its mutation through the store's update operation. -/
theorem setStatus_none_inv {σ : Type} (ops : StoreOps σ) (st : σ)
    (name : String) (status : Status) (rev : Int) (allowed : List Status)
    (now : Int) (st2 : σ)
    (h : SetStatus ops st name status rev allowed now = (none, st2)) :
    ∃ rel, resolveRelease ops st name rev = .ok rel ∧
      ops.update st (mutateRelease rel status now) = .ok st2 := by
  cases hres : resolveRelease ops st name rev with
  | error e =>
      rw [SetStatus_err_eq ops st name status rev allowed now e hres] at h
      exact absurd (congrArg Prod.fst h) (by simp)
  | ok rel =>
      refine ⟨rel, rfl, ?_⟩
      rw [SetStatus_ok_eq ops st name status rev allowed now rel hres] at h
      split_ifs at h with h0 hmem
      · exact persistRelease_none_inv ops st st2 name rel status now h
      · exact absurd (congrArg Prod.fst h) (by simp)
      · exact persistRelease_none_inv ops st st2 name rel status now h

/-- Inversion: a successful resolution with a positive revision came from
the store's lookup-by-name-and-revision. -/
theorem resolveRelease_pos_inv {σ : Type} (ops : StoreOps σ) (st : σ)
    (name : String) (rev : Int) (rel : Release) (hr : 0 < rev)
    (h : resolveRelease ops st name rev = .ok rel) :
    ops.get st name rev = .ok rel := by
  cases hg : ops.get st name rev with
  | ok rel2 =>
      rw [resolveRelease_pos_ok ops st name rev rel2 hr hg] at h
      injection h with h3
      rw [h3]
  | error c =>
      rw [resolveRelease_pos_err ops st name rev c hr hg] at h
      exact absurd h (by simp)

/-- Inversion: a successful in-memory lookup found the record by its key,
so the record carries exactly that name and revision. -/
theorem memGet_ok_inv (store : MemStore) (name : String) (v : Int)
    (rel : Release) (h : memGet store name v = .ok rel) :
    store.find? (fun r => r.Name == name && r.Version == v) = some rel ∧
      rel.Name = name ∧ rel.Version = v := by
  unfold memGet at h
  cases hf : store.find? (fun r => r.Name == name && r.Version == v) with
  | none =>
      rw [hf] at h
      exact absurd h (by simp)
  | some rel2 =>
      rw [hf] at h
      have h2 : (Except.ok rel2 : Except String Release) = .ok rel := h
      injection h2 with h3
      subst h3
      have hp := List.find?_some hf
      simp only [Bool.and_eq_true, beq_iff_eq] at hp
      exact ⟨rfl, hp.1, hp.2⟩

/-- Inversion: a successful in-memory update overwrote exactly the
record's own name-and-revision key. -/
theorem memUpdate_ok_inv (store : MemStore) (rel : Release) (st2 : MemStore)
    (h : memUpdate store rel = .ok st2) :
    st2 = store.map (fun r =>
      if r.Name == rel.Name && r.Version == rel.Version then rel else r) := by
  unfold memUpdate at h
  split_ifs at h with hc
  · have h2 : (Except.ok (store.map (fun r =>
        if r.Name == rel.Name && r.Version == rel.Version then rel else r)) :
          Except String MemStore) = .ok st2 := h
    injection h2 with h3
    exact h3.symm

/-- Overwriting one key of the in-memory store leaves the lookup of every
other key unchanged. -/
theorem memGet_map_frame (store : MemStore) (rel2 : Release) (n2 : String)
    (v2 : Int) (hk : rel2.Name ≠ n2 ∨ rel2.Version ≠ v2) :
    memGet (store.map (fun x =>
        if x.Name == rel2.Name && x.Version == rel2.Version then rel2 else x))
      n2 v2 = memGet store n2 v2 := by
  unfold memGet
  rw [List.find?_map]
  have hpf : (fun x => x.Name == n2 && x.Version == v2) ∘ (fun x =>
      if x.Name == rel2.Name && x.Version == rel2.Version then rel2 else x) =
      (fun x : Release => x.Name == n2 && x.Version == v2) := by
    funext x
    simp only [Function.comp]
    by_cases hc : (x.Name == rel2.Name && x.Version == rel2.Version) = true
    · rw [if_pos hc]
      simp only [Bool.and_eq_true, beq_iff_eq] at hc
      rw [hc.1, hc.2]
    · rw [if_neg hc]
  rw [hpf]
  cases hf : store.find? (fun x => x.Name == n2 && x.Version == v2) with
  | none => rfl
  | some y =>
      have hp := List.find?_some hf
      simp only [Bool.and_eq_true, beq_iff_eq] at hp
      have hcond : ¬(y.Name == rel2.Name && y.Version == rel2.Version) = true := by
        intro hcc
        simp only [Bool.and_eq_true, beq_iff_eq] at hcc
        rcases hk with h | h
        · exact h (hcc.1.symm.trans hp.1)
        · exact h (hcc.2.symm.trans hp.2)
      have hmap : Option.map (fun x =>
          if x.Name == rel2.Name && x.Version == rel2.Version then rel2 else x)
          (some y) = some y := by
        simp only [Option.map_some']
        rw [if_neg hcond]
      rw [hmap]

/-- C5: in the in-memory store, a successful SetStatus targeting explicit
revision r > 0 changes only that revision's record: the write is keyed by
the resolved record's own name and revision, and the lookup of every
other key — other revisions of the release and records of other releases
— returns the same record as before the call. -/
theorem setStatus_revision_isolation (store : MemStore) (name : String)
    (status : Status) (r : Int) (allowed : List Status) (now : Int)
    (st2 : MemStore) (n2 : String) (v2 : Int) (hr : 0 < r)
    (hset : SetStatus memStoreOps store name status r allowed now = (none, st2))
    (hk : n2 ≠ name ∨ v2 ≠ r) :
    memGet st2 n2 v2 = memGet store n2 v2 := by
  obtain ⟨rel, hres, hupd⟩ :=
    setStatus_none_inv memStoreOps store name status r allowed now st2 hset
  have hg : memGet store name r = .ok rel :=
    resolveRelease_pos_inv memStoreOps store name r rel hr hres
  obtain ⟨hfind, hn, hv⟩ := memGet_ok_inv store name r rel hg
  have hst2 := memUpdate_ok_inv store (mutateRelease rel status now) st2 hupd
  subst hst2
  apply memGet_map_frame
  rcases hk with h | h
  · left
    show rel.Name ≠ n2
    rw [hn]
    exact fun hh => h hh.symm
  · right
    show rel.Version ≠ v2
    rw [hv]
    exact fun hh => h hh.symm

/-- Witness for C5: updating revision 1 of a two-revision release leaves
revision 2's record unchanged. -/
theorem setStatus_revision_isolation_witness :
    (0 : Int) < 1 ∧
    SetStatus memStoreOps [sampleRelease, sampleRelease2] "my-release"
        StatusFailed 1 [] 7 =
      (none, [mutateRelease sampleRelease StatusFailed 7, sampleRelease2]) ∧
    memGet [mutateRelease sampleRelease StatusFailed 7, sampleRelease2]
        "my-release" 2 =
      memGet [sampleRelease, sampleRelease2] "my-release" 2 :=
  ⟨by decide, by decide,
   setStatus_revision_isolation [sampleRelease, sampleRelease2] "my-release"
     StatusFailed 1 [] 7
     [mutateRelease sampleRelease StatusFailed 7, sampleRelease2]
     "my-release" 2 (by decide) (by decide) (Or.inr (by decide))⟩
